import Mathlib

/-!
Verification development for the savannah-backend SMS notification subsystem.

Shallow embedding of the Go sources:
- `internal/services/sms_service.go` (job record, `QueueSMS`, `processSMSJob`,
  `sendSMS` outcome classification, `ProcessSMSJobs` loop);
- `internal/monitoring/health.go` (`RedisJobQueue`: `Enqueue`, `Dequeue`,
  `dequeueFromRetry`, `UpdateJob`, `RetryJob`, `MarkCompleted`, `MarkFailed`);
- the order-creation HTTP handler (`OrderHandler.CreateOrder`).

Modelling conventions: UUIDs are `Nat`; `time.Time` values are `Int` Unix
seconds; `time.Duration` values are `Int` (the unit is irrelevant to every
property proved here); the `float64` order amount is abstracted as `Int` and
its `%.2f` rendering as `toString` (no property depends on the rendering).
External effects (the HTTP gateway call, Redis round trips) are passed in as
explicit values; Redis sorted sets are association lists ordered by insertion,
Redis sets are duplicate-free-by-construction lists.
-/

namespace Savannah

/-- Job record, embedding Go struct `services.SMSJob`. -/
structure SMSJob where
  id : Nat
  orderId : Nat
  customerId : Nat
  phone : String
  message : String
  status : String
  attempts : Int
  maxAttempts : Int
  lastError : String
  createdAt : Int
  lastAttempt : Int
  scheduledFor : Int
deriving DecidableEq

/-- One recipient entry of the gateway response, embedding Go struct
`services.SMSRecipient`. -/
structure SMSRecipient where
  statusCode : Int
  number : String
  status : String
  cost : String
  messageId : String
  messageParts : Int
deriving DecidableEq

/-- Gateway response body, embedding Go structs `services.SMSResponse` /
`services.SMSMessageData` (flattened: the one nested field of interest is the
recipients list). -/
structure SMSResponse where
  message : String
  recipients : List SMSRecipient
deriving DecidableEq

/-- Result of one `sendSMS` invocation as seen by `processSMSJob`: either an
error (network failure, non-201 HTTP status, body read or unmarshal failure)
or a parsed response. -/
inductive SendResult where
  | err : String → SendResult
  | ok : SMSResponse → SendResult
deriving DecidableEq

/-- Raw outcome of the HTTP round trip inside `sendSMS`, before the function
classifies it: a transport-level error, or an HTTP status code together with
the parse result of the body. -/
inductive HttpResult where
  | netErr : String → HttpResult
  | resp : Nat → Option SMSResponse → HttpResult
deriving DecidableEq

/-- Embedding of the tail of `SMSService.sendSMS` (sms_service.go): a
transport error is returned as an error; a non-201 status is returned as an
error; an unparseable body is returned as an error; otherwise the parsed
response is returned. -/
def sendSMSClassify : HttpResult → SendResult
  | .netErr e => .err ("HTTP request failed: " ++ e)
  | .resp st parsed =>
    if st ≠ 201 then .err ("SMS API returned status " ++ toString st)
    else
      match parsed with
      | none => .err "failed to unmarshal SMS response"
      | some r => .ok r

/-- One call made by `processSMSJob` against the `JobQueue` interface, in
source order. -/
inductive StoreCall where
  | retryJob : Int → StoreCall
  | markCompleted : StoreCall
  | markFailed : String → StoreCall
  | updateJob : StoreCall
deriving DecidableEq

/-- The backoff delay computed in `processSMSJob`:
`time.Duration(job.Attempts*job.Attempts) * s.config.RetryDelay`. -/
def backoffDelay (attempts retryDelay : Int) : Int :=
  attempts * attempts * retryDelay

/-- Embedding of `SMSService.processSMSJob` (sms_service.go). `retryDelay` is
`s.config.RetryDelay`, `now` the wall clock at entry, `send` the result of the
single `sendSMS` invocation. Returns the mutated job record and the ordered
list of `JobQueue` calls the function makes. -/
def processSMSJob (retryDelay now : Int) (job : SMSJob) (send : SendResult) :
    SMSJob × List StoreCall :=
  let job := { job with attempts := job.attempts + 1, lastAttempt := now }
  match send with
  | .err e =>
    let job := { job with lastError := e }
    if job.attempts < job.maxAttempts then
      (job, [StoreCall.retryJob (backoffDelay job.attempts retryDelay)])
    else
      ({ job with status := "failed" }, [StoreCall.markFailed e])
  | .ok response =>
    match response.recipients with
    | [] => (job, [StoreCall.updateJob])
    | recipient :: _ =>
      if recipient.statusCode = 101 ∨ recipient.statusCode = 100 then
        ({ job with status := "sent" }, [StoreCall.markCompleted, StoreCall.updateJob])
      else
        let errorMsg := "SMS API error: " ++ recipient.status ++ " (code: "
          ++ toString recipient.statusCode ++ ")"
        let job := { job with lastError := errorMsg }
        if job.attempts < job.maxAttempts then
          (job, [StoreCall.retryJob (backoffDelay job.attempts retryDelay)])
        else
          ({ job with status := "failed" }, [StoreCall.markFailed errorMsg, StoreCall.updateJob])

/-- The job-record mutation performed by `RedisJobQueue.RetryJob`
(health.go): `job.ScheduledFor = time.Now().Add(delay)`. -/
def retryJobUpdate (now delay : Int) (j : SMSJob) : SMSJob :=
  { j with scheduledFor := now + delay }

/-- Serialized job data under a `sms_job:<id>` key: either bytes that
`json.Unmarshal` rejects, or a well-formed record. -/
inductive StoredData where
  | malformed : StoredData
  | ok : SMSJob → StoredData
deriving DecidableEq

/-- State of the Redis store as used by `RedisJobQueue` (health.go):
the two sorted sets (`sms_jobs:pending`, `sms_jobs:retry`) as insertion-ordered
lists of (member, score); the three plain sets (`sms_jobs:processing`,
`sms_jobs:completed`, `sms_jobs:failed`) as duplicate-free lists; the
`sms_job:<id>` data keys as an association list; and the `sms_stats:*`
counters touched by the queue operations. -/
structure QueueState where
  pending : List (Nat × Int)
  retry : List (Nat × Int)
  processing : List Nat
  completed : List Nat
  failed : List Nat
  jobData : List (Nat × StoredData)
  statsPending : Int
  statsSent : Int
  statsFailed : Int
deriving DecidableEq

/-- `SAdd` on a set modelled as a duplicate-free list: append if absent. -/
def setAdd (x : Nat) (xs : List Nat) : List Nat :=
  if x ∈ xs then xs else xs ++ [x]

/-- `SRem`: drop the member. -/
def setRem (x : Nat) (xs : List Nat) : List Nat :=
  xs.filter (fun y => y ≠ x)

/-- `ZRem`: drop the member from a sorted set. -/
def zRem (x : Nat) (zs : List (Nat × Int)) : List (Nat × Int) :=
  zs.filter (fun p => p.1 ≠ x)

/-- `ZAdd`: set the member's score (re-adding replaces the old score). -/
def zAdd (x : Nat) (score : Int) (zs : List (Nat × Int)) : List (Nat × Int) :=
  zRem x zs ++ [(x, score)]

/-- `Set` on a data key: upsert the association. -/
def dataSet (x : Nat) (d : StoredData) (ds : List (Nat × StoredData)) :
    List (Nat × StoredData) :=
  ds.filter (fun p => p.1 ≠ x) ++ [(x, d)]

/-- `Get` on a data key. -/
def dataGet (x : Nat) (ds : List (Nat × StoredData)) : Option StoredData :=
  (ds.find? (fun p => p.1 = x)).map (fun p => p.2)

/-- The entry a `ZRangeByScore Min=0 Max=now Count=1` call returns: among
entries with `0 ≤ score ≤ now`, the one with the smallest score (the earliest
inserted on a score tie). -/
def zFirstEligible (zs : List (Nat × Int)) (now : Int) : Option Nat :=
  (List.foldl
    (fun best p =>
      match best with
      | none => some p
      | some q => if p.2 < q.2 then some p else some q)
    none
    (zs.filter (fun p => 0 ≤ p.2 ∧ p.2 ≤ now))).map (fun p => p.1)

/-- Embedding of `RedisJobQueue.Enqueue` (health.go): store the job data, add
the id to the pending sorted set scored by `scheduledFor`, bump the pending
counter. -/
def Enqueue (st : QueueState) (j : SMSJob) : QueueState :=
  { st with
    jobData := dataSet j.id (.ok j) st.jobData
    pending := zAdd j.id j.scheduledFor st.pending
    statsPending := st.statsPending + 1 }

/-- The read phase of `RedisJobQueue.Dequeue`: the `ZRangeByScore` call
against the pending sorted set. It is a separate Redis round trip from the
transaction that moves the job. -/
def dequeueSelectPending (st : QueueState) (now : Int) : Option Nat :=
  zFirstEligible st.pending now

/-- The read phase of `RedisJobQueue.dequeueFromRetry`: the `ZRangeByScore`
call against the retry sorted set. -/
def dequeueSelectRetry (st : QueueState) (now : Int) : Option Nat :=
  zFirstEligible st.retry now

/-- The `TxPipeline` of `Dequeue` once a pending id was selected:
`ZRem pending id; SAdd processing id; Decr sms_stats:pending`. -/
def claimFromPending (st : QueueState) (id : Nat) : QueueState :=
  { st with
    pending := zRem id st.pending
    processing := setAdd id st.processing
    statsPending := st.statsPending - 1 }

/-- The `TxPipeline` of `dequeueFromRetry` once a retry id was selected:
`ZRem retry id; SAdd processing id` (no counter update in the source). -/
def claimFromRetry (st : QueueState) (id : Nat) : QueueState :=
  { st with
    retry := zRem id st.retry
    processing := setAdd id st.processing }

/-- What one `Dequeue` / `dequeueFromRetry` call hands back to the caller. -/
inductive DequeueOutcome where
  | gotJob : SMSJob → DequeueOutcome
  | empty : DequeueOutcome
  | dataMissing : Nat → DequeueOutcome
  | dataMalformed : Nat → DequeueOutcome
deriving DecidableEq

/-- The data-fetch tail shared by `Dequeue` and `dequeueFromRetry`: `Get` the
job data; on `redis.Nil` the id is `SRem`-ed back out of processing and an
error returned; on an unmarshal failure an error is returned with the id left
in processing; otherwise the job is returned. -/
def fetchJob (st : QueueState) (id : Nat) : DequeueOutcome × QueueState :=
  match dataGet id st.jobData with
  | none => (.dataMissing id, { st with processing := setRem id st.processing })
  | some .malformed => (.dataMalformed id, st)
  | some (.ok j) => (.gotJob j, st)

/-- Embedding of `RedisJobQueue.dequeueFromRetry` (health.go). -/
def dequeueFromRetry (st : QueueState) (now : Int) : DequeueOutcome × QueueState :=
  match dequeueSelectRetry st now with
  | none => (.empty, st)
  | some id => fetchJob (claimFromRetry st id) id

/-- Embedding of `RedisJobQueue.Dequeue` (health.go): scan the pending sorted
set; if it has no eligible entry, fall through to the retry sorted set;
otherwise claim and fetch the selected pending id. -/
def Dequeue (st : QueueState) (now : Int) : DequeueOutcome × QueueState :=
  match dequeueSelectPending st now with
  | none => dequeueFromRetry st now
  | some id => fetchJob (claimFromPending st id) id

/-- Store effect of one `JobQueue` call issued by `processSMSJob` for job
`id` with record `j`, embedding `UpdateJob`, `RetryJob`, `MarkCompleted`
and `MarkFailed` of health.go (the 24h/7d TTLs and the `error:<id>` key are
retention bookkeeping no claim touches and are not modelled). -/
def applyStoreCall (now : Int) (id : Nat) (j : SMSJob) (st : QueueState) :
    StoreCall → QueueState
  | .updateJob => { st with jobData := dataSet id (.ok j) st.jobData }
  | .retryJob d =>
    let j2 := retryJobUpdate now d j
    { st with
      jobData := dataSet id (.ok j2) st.jobData
      processing := setRem id st.processing
      retry := zAdd id j2.scheduledFor st.retry }
  | .markCompleted =>
    { st with
      processing := setRem id st.processing
      completed := setAdd id st.completed
      statsSent := st.statsSent + 1 }
  | .markFailed _ =>
    { st with
      processing := setRem id st.processing
      failed := setAdd id st.failed
      statsFailed := st.statsFailed + 1 }

/-- Fold `applyStoreCall` over the call list of one `processSMSJob` run. -/
def applyStoreCalls (now : Int) (id : Nat) (j : SMSJob) :
    QueueState → List StoreCall → QueueState
  | st, [] => st
  | st, c :: cs => applyStoreCalls now id j (applyStoreCall now id j st c) cs

/-- Modelled from the spec (section 4.2, `ClaimNext`): select, among pending
and retrying entries whose `scheduledFor ≤ now`, the one with the smallest
`scheduledFor` across the union of both containers. Stated for comparison
with `Dequeue`, which is the embedding of the source. -/
def specClaimNext (st : QueueState) (now : Int) : Option Nat :=
  zFirstEligible (st.pending ++ st.retry) now

/-- What one iteration of the `SMSService.ProcessSMSJobs` loop
(sms_service.go) does, by case. -/
inductive LoopEffect where
  | exitWithErr : LoopEffect
  | logAndSleepFive : LoopEffect
  | sleepOne : LoopEffect
  | processJob : SMSJob → LoopEffect
deriving DecidableEq

/-- Embedding of one iteration of `SMSService.ProcessSMSJobs`: if the context
is done the loop returns `ctx.Err()`; a dequeue error is logged and followed
by a 5s sleep; a nil job by a 1s sleep; a job by `processSMSJob`. In every
case but the first, the loop continues. -/
def loopIteration (ctxDone : Bool) (deq : DequeueOutcome) : LoopEffect :=
  if ctxDone then .exitWithErr
  else
    match deq with
    | .gotJob j => .processJob j
    | .empty => .sleepOne
    | .dataMissing _ => .logAndSleepFive
    | .dataMalformed _ => .logAndSleepFive

/-- Whether the worker loop keeps running after the given iteration effect. -/
def loopContinues : LoopEffect → Bool
  | .exitWithErr => false
  | _ => true

/-- Customer row as the order path sees it (`models.Customer`: only the
fields the SMS subsystem reads). -/
structure CustomerRec where
  id : Nat
  name : String
  phone : String
deriving DecidableEq

/-- Order row built by `OrderHandler.CreateOrder` (`models.Order`, the fields
the handler sets plus the loaded customer). -/
structure OrderRec where
  id : Nat
  customerId : Nat
  item : String
  amount : Int
  orderedAt : Int
  status : String
  version : Int
  isActive : Bool
  createdAt : Int
  updatedAt : Int
  customer : CustomerRec
deriving DecidableEq

/-- Request body of `POST /v1/orders` (`models.CreateOrderRequest`). -/
structure CreateOrderRequest where
  customerId : Nat
  item : String
  amount : Int
  orderedAt : Option Int
deriving DecidableEq

/-- Result of the handler's `customerRepo.GetByID` call. -/
inductive RepoLookup where
  | found : CustomerRec → RepoLookup
  | notFound : RepoLookup
  | dbErr : String → RepoLookup
deriving DecidableEq

/-- HTTP response the order handler writes: status code, success flag,
message, and the order payload when present. -/
structure HttpResp where
  status : Nat
  success : Bool
  message : String
  data : Option OrderRec
deriving DecidableEq

/-- Embedding of `SMSService.buildOrderSMSMessage` (sms_service.go). The
`%.2f` amount rendering and the UUID rendering are abstracted by `toString`;
nothing proved here depends on those renderings. -/
def buildOrderSMSMessage (o : OrderRec) : String :=
  "Hello " ++ o.customer.name ++ "! Your order for " ++ o.item
    ++ " (Amount: " ++ toString o.amount ++ ") has been received. Order ID: "
    ++ toString o.id ++ ". Thank you!"

/-- Embedding of `SMSService.QueueSMS` (sms_service.go): reject an empty
customer phone, otherwise build the job record handed to `Enqueue`.
`retryLimit` is `s.config.RetryLimit`, `now` the creation wall clock, `newId`
the freshly drawn UUID. The `jobQueue.Enqueue` store round trip itself is
`Enqueue` above; this function returns the record it would enqueue. -/
def QueueSMS (retryLimit now : Int) (newId : Nat) (o : OrderRec) :
    Except String SMSJob :=
  if o.customer.phone = "" then
    .error "customer phone number is required"
  else
    .ok
      { id := newId
        orderId := o.id
        customerId := o.customerId
        phone := o.customer.phone
        message := buildOrderSMSMessage o
        status := "pending"
        attempts := 0
        maxAttempts := retryLimit
        lastError := ""
        createdAt := now
        lastAttempt := 0
        scheduledFor := now }

/-- Embedding of `OrderHandler.CreateOrder` (order handler source). The
external effects are passed in: `parsed` is the JSON bind result, `custLookup`
the repository lookup, `createErr` the `orderRepo.Create` result, `qsmsErr`
the `smsService.QueueSMS` result. A `QueueSMS` failure is only logged; the
handler then writes 201 with the order payload either way. -/
def createOrderHandler (parsed : Option CreateOrderRequest)
    (custLookup : RepoLookup) (newOrderId : Nat) (createErr : Option String)
    (qsmsErr : Option String) (now : Int) : HttpResp :=
  match parsed with
  | none =>
    { status := 400, success := false, message := "Invalid request data", data := none }
  | some req =>
    match custLookup with
    | .notFound =>
      { status := 400, success := false, message := "Customer not found", data := none }
    | .dbErr _ =>
      { status := 500, success := false, message := "Failed to verify customer", data := none }
    | .found customer =>
      let orderedAt := req.orderedAt.getD now
      let order : OrderRec :=
        { id := newOrderId
          customerId := req.customerId
          item := req.item
          amount := req.amount
          orderedAt := orderedAt
          status := "pending"
          version := 1
          isActive := true
          createdAt := now
          updatedAt := now
          customer := customer }
      match createErr with
      | some _ =>
        { status := 500, success := false, message := "Failed to create order", data := none }
      | none =>
        match qsmsErr with
        | some _ =>
          { status := 201, success := true, message := "Order created successfully",
            data := some order }
        | none =>
          { status := 201, success := true, message := "Order created successfully",
            data := some order }

/-- First retry delay in a call list, if any (the store applies it via
`RetryJob`). -/
def retryDelayOf : List StoreCall → Option Int
  | [] => none
  | .retryJob d :: _ => some d
  | _ :: rest => retryDelayOf rest

/-- Number of `retryJob` calls in a call list. -/
def countRetryCalls : List StoreCall → Nat
  | [] => 0
  | .retryJob _ :: cs => countRetryCalls cs + 1
  | _ :: cs => countRetryCalls cs

/-- A job's lifetime under a sequence of per-attempt send outcomes: the
worker claims it, runs `processSMSJob` on the next outcome, and — exactly
when a `RetryJob` call was issued, i.e. when the job went back to the retry
container — claims it again later (the store having applied `RetryJob`'s
`scheduledFor` update). Returns the final record and every `JobQueue` call
made along the way. -/
def runAttempts (retryDelay : Int) : List (Int × SendResult) → SMSJob →
    SMSJob × List StoreCall
  | [], job => (job, [])
  | (now, s) :: rest, job =>
    let pr := processSMSJob retryDelay now job s
    match retryDelayOf pr.2 with
    | some d =>
      let next := runAttempts retryDelay rest (retryJobUpdate now d pr.1)
      (next.1, pr.2 ++ next.2)
    | none => pr

/-- A job's lifetime under an arbitrary sequence of per-attempt send results:
each consumed event is exactly one `sendSMS` invocation; the run continues
only while the job is sent back to the retry container. Returns the final
record and the number of `sendSMS` invocations made. -/
def runJob (retryDelay : Int) : List (Int × SendResult) → SMSJob → SMSJob × Nat
  | [], job => (job, 0)
  | (now, s) :: rest, job =>
    let pr := processSMSJob retryDelay now job s
    match retryDelayOf pr.2 with
    | some d =>
      let next := runJob retryDelay rest (retryJobUpdate now d pr.1)
      (next.1, next.2 + 1)
    | none => (pr.1, 1)

/-! ## Concrete instances used by closed theorems -/

/-- A freshly enqueued job record scheduled at 10. -/
def jobPending : SMSJob :=
  { id := 1
    orderId := 11
    customerId := 21
    phone := "+254700000000"
    message := "hello"
    status := "pending"
    attempts := 0
    maxAttempts := 3
    lastError := ""
    createdAt := 0
    lastAttempt := 0
    scheduledFor := 10 }

/-- A job sitting in the retry container, scheduled at 5 — earlier than
`jobPending`. -/
def jobRetry : SMSJob :=
  { jobPending with id := 2, scheduledFor := 5 }

/-- Store with one eligible pending job (scheduled 10) and one eligible retry
job (scheduled 5). -/
def stMerge : QueueState :=
  { pending := [(1, 10)]
    retry := [(2, 5)]
    processing := []
    completed := []
    failed := []
    jobData := [(1, .ok jobPending), (2, .ok jobRetry)]
    statsPending := 1
    statsSent := 0
    statsFailed := 0 }

/-- A single eligible pending job, scheduled at 5. -/
def jobRace : SMSJob :=
  { jobPending with scheduledFor := 5 }

/-- Store with exactly one eligible pending job, contested by two workers. -/
def stRace : QueueState :=
  { pending := [(1, 5)]
    retry := []
    processing := []
    completed := []
    failed := []
    jobData := [(1, .ok jobRace)]
    statsPending := 1
    statsSent := 0
    statsFailed := 0 }

/-- Store whose only pending job has malformed serialized data. -/
def stMalformed : QueueState :=
  { pending := [(1, 5)]
    retry := []
    processing := []
    completed := []
    failed := []
    jobData := [(1, .malformed)]
    statsPending := 1
    statsSent := 0
    statsFailed := 0 }

/-- A fresh job used for the exhaustion run: attempts 0, maxAttempts 3. -/
def jobFresh : SMSJob :=
  { jobPending with scheduledFor := 0 }

/-- A gateway response recipient whose status code is neither 100 nor 101. -/
def rejectedRecipient : SMSRecipient :=
  { statusCode := 403
    number := "+254700000000"
    status := "UserInBlacklist"
    cost := "0"
    messageId := ""
    messageParts := 1 }

/-- Three failing attempts mixing both failure modes the claim names: two
gateway errors and one HTTP-201 response whose first recipient carries a
non-success status code. -/
def failingRun : List (Int × SendResult) :=
  [(100, SendResult.err "gateway error"),
   (101, SendResult.ok { message := "ok", recipients := [rejectedRecipient] }),
   (102, SendResult.err "gateway timeout")]

/-- An order with a customer that has a phone number. -/
def orderSample : OrderRec :=
  { id := 7
    customerId := 3
    item := "Widget"
    amount := 100
    orderedAt := 0
    status := "pending"
    version := 1
    isActive := true
    createdAt := 0
    updatedAt := 0
    customer := { id := 3, name := "Ann", phone := "+254700000000" } }

/-- The same order with the customer phone blank. -/
def orderNoPhone : OrderRec :=
  { orderSample with customer := { id := 3, name := "Ann", phone := "" } }

/-- The spec's Delivered classification of one send outcome: the gateway call
succeeded at the HTTP level and the first recipient status code is 100 or
101. -/
def isDelivered : SendResult → Bool
  | .err _ => false
  | .ok resp =>
    match resp.recipients with
    | [] => false
    | r :: _ => r.statusCode == 101 || r.statusCode == 100

/-- The spec's retryable classification: a gateway error, or a response whose
first recipient carries any other status code. -/
def isRetryableOutcome : SendResult → Bool
  | .err _ => true
  | .ok resp =>
    match resp.recipients with
    | [] => false
    | r :: _ => !(r.statusCode == 101 || r.statusCode == 100)

/-! ## Branch computation lemmas for `processSMSJob` -/

theorem processSMSJob_err_eq (rd now : Int) (j : SMSJob) (e : String) :
    processSMSJob rd now j (.err e) =
      if j.attempts + 1 < j.maxAttempts then
        ({ j with attempts := j.attempts + 1, lastAttempt := now, lastError := e },
          [StoreCall.retryJob (backoffDelay (j.attempts + 1) rd)])
      else
        ({ j with
            attempts := j.attempts + 1
            lastAttempt := now
            lastError := e
            status := "failed" }, [StoreCall.markFailed e]) := by
  rfl

theorem processSMSJob_ok_empty_eq (rd now : Int) (j : SMSJob) (m : String) :
    processSMSJob rd now j (.ok { message := m, recipients := [] }) =
      ({ j with attempts := j.attempts + 1, lastAttempt := now },
        [StoreCall.updateJob]) := by
  rfl

theorem processSMSJob_ok_cons_eq (rd now : Int) (j : SMSJob) (m : String)
    (r : SMSRecipient) (rest : List SMSRecipient) :
    processSMSJob rd now j (.ok { message := m, recipients := r :: rest }) =
      if r.statusCode = 101 ∨ r.statusCode = 100 then
        ({ j with attempts := j.attempts + 1, lastAttempt := now, status := "sent" },
          [StoreCall.markCompleted, StoreCall.updateJob])
      else
        if j.attempts + 1 < j.maxAttempts then
          ({ j with
              attempts := j.attempts + 1
              lastAttempt := now
              lastError := "SMS API error: " ++ r.status ++ " (code: "
                ++ toString r.statusCode ++ ")" },
            [StoreCall.retryJob (backoffDelay (j.attempts + 1) rd)])
        else
          ({ j with
              attempts := j.attempts + 1
              lastAttempt := now
              lastError := "SMS API error: " ++ r.status ++ " (code: "
                ++ toString r.statusCode ++ ")"
              status := "failed" },
            [StoreCall.markFailed ("SMS API error: " ++ r.status ++ " (code: "
              ++ toString r.statusCode ++ ")"), StoreCall.updateJob]) := by
  rfl

theorem processSMSJob_attempts (rd now : Int) (j : SMSJob) (s : SendResult) :
    (processSMSJob rd now j s).1.attempts = j.attempts + 1 := by
  cases s with
  | err e =>
    rw [processSMSJob_err_eq]
    split <;> rfl
  | ok resp =>
    obtain ⟨m, rs⟩ := resp
    cases rs with
    | nil => rw [processSMSJob_ok_empty_eq]
    | cons r rest =>
      rw [processSMSJob_ok_cons_eq]
      split
      · rfl
      · split <;> rfl

theorem processSMSJob_maxAttempts (rd now : Int) (j : SMSJob) (s : SendResult) :
    (processSMSJob rd now j s).1.maxAttempts = j.maxAttempts := by
  cases s with
  | err e =>
    rw [processSMSJob_err_eq]
    split <;> rfl
  | ok resp =>
    obtain ⟨m, rs⟩ := resp
    cases rs with
    | nil => rw [processSMSJob_ok_empty_eq]
    | cons r rest =>
      rw [processSMSJob_ok_cons_eq]
      split
      · rfl
      · split <;> rfl

/-- A `retryJob` call is emitted only from the two `attempts < maxAttempts`
branches, and the updated record's counter is still below the ceiling. -/
theorem retryJob_only_below_max (rd now : Int) (j : SMSJob) (s : SendResult)
    (d : Int) (h : StoreCall.retryJob d ∈ (processSMSJob rd now j s).2) :
    (processSMSJob rd now j s).1.attempts < j.maxAttempts := by
  rw [processSMSJob_attempts]
  cases s with
  | err e =>
    rw [processSMSJob_err_eq] at h
    split at h
    · next hlt => exact hlt
    · simp at h
  | ok resp =>
    obtain ⟨m, rs⟩ := resp
    cases rs with
    | nil =>
      rw [processSMSJob_ok_empty_eq] at h
      simp at h
    | cons r rest =>
      rw [processSMSJob_ok_cons_eq] at h
      split at h
      · simp at h
      · split at h
        · next hlt => exact hlt
        · simp at h

/-- Any `retryJob` call issued by `processSMSJob` carries exactly the
quadratic backoff delay computed from the incremented counter. -/
theorem retryJob_delay_value (rd now : Int) (j : SMSJob) (s : SendResult)
    (d : Int) (h : StoreCall.retryJob d ∈ (processSMSJob rd now j s).2) :
    d = backoffDelay (j.attempts + 1) rd := by
  cases s with
  | err e =>
    rw [processSMSJob_err_eq] at h
    split at h
    · simpa using h
    · simp at h
  | ok resp =>
    obtain ⟨m, rs⟩ := resp
    cases rs with
    | nil =>
      rw [processSMSJob_ok_empty_eq] at h
      simp at h
    | cons r rest =>
      rw [processSMSJob_ok_cons_eq] at h
      split at h
      · simp at h
      · split at h
        · simpa using h
        · simp at h

/-! ## Helper lemmas on lists, strings and runs -/

theorem countRetryCalls_append (a b : List StoreCall) :
    countRetryCalls (a ++ b) = countRetryCalls a + countRetryCalls b := by
  induction a with
  | nil => simp [countRetryCalls]
  | cons c cs ih =>
    cases c with
    | retryJob d => simp [countRetryCalls, ih]; omega
    | markCompleted => simp [countRetryCalls, ih]
    | markFailed m => simp [countRetryCalls, ih]
    | updateJob => simp [countRetryCalls, ih]

theorem length_zero_eq (s : String) (h : s.length = 0) : s = "" := by
  cases s with
  | mk data =>
    cases data with
    | nil => rfl
    | cons c cs => simp [String.length] at h

theorem append_ne_empty_left (s t : String) (h : s ≠ "") : s ++ t ≠ "" := by
  intro he
  have h2 := congrArg String.length he
  simp [String.length_append] at h2
  exact h (length_zero_eq s h2.1)

theorem buildOrderSMSMessage_ne_empty (o : OrderRec) :
    buildOrderSMSMessage o ≠ "" := by
  unfold buildOrderSMSMessage
  repeat apply append_ne_empty_left
  decide

theorem mem_setAdd_self (x : Nat) (xs : List Nat) : x ∈ setAdd x xs := by
  unfold setAdd
  split
  · assumption
  · simp

/-- One step on any failing outcome the claim names — a gateway error or a
response whose first recipient carries a non-success status code: below the
ceiling the step leaves the status alone and emits one `RetryJob` carrying
the backoff delay; at the ceiling it sets status `failed` and emits no
`RetryJob`. -/
theorem processSMSJob_failing (rd now : Int) (j : SMSJob) (s : SendResult)
    (hs : isRetryableOutcome s = true) :
    if j.attempts + 1 < j.maxAttempts then
      (processSMSJob rd now j s).1.status = j.status
      ∧ retryDelayOf (processSMSJob rd now j s).2
          = some (backoffDelay (j.attempts + 1) rd)
      ∧ countRetryCalls (processSMSJob rd now j s).2 = 1
    else
      (processSMSJob rd now j s).1.status = "failed"
      ∧ retryDelayOf (processSMSJob rd now j s).2 = none
      ∧ countRetryCalls (processSMSJob rd now j s).2 = 0 := by
  cases s with
  | err e =>
    rw [processSMSJob_err_eq]
    split
    · exact ⟨rfl, rfl, rfl⟩
    · exact ⟨rfl, rfl, rfl⟩
  | ok resp =>
    obtain ⟨m, rs⟩ := resp
    cases rs with
    | nil => simp [isRetryableOutcome] at hs
    | cons r rest =>
      have hc : ¬ (r.statusCode = 101 ∨ r.statusCode = 100) := by
        simp [isRetryableOutcome, beq_iff_eq, Bool.or_eq_true, not_or] at hs
        exact not_or.mpr hs
      rw [processSMSJob_ok_cons_eq, if_neg hc]
      split
      · exact ⟨rfl, rfl, rfl⟩
      · exact ⟨rfl, rfl, rfl⟩

/-- Exhaustion run: starting `k ≥ 1` attempts below the ceiling with at
least `k` failing outcomes of either kind, in any mix, the job ends with
status `failed`, its counter at the ceiling, and exactly `k - 1` retry calls
made along the way. -/
theorem runAttempts_all_failing (rd : Int) :
    ∀ (evs : List (Int × SendResult)) (k : Nat) (j : SMSJob),
      (∀ e ∈ evs, isRetryableOutcome e.2 = true) →
      1 ≤ k → k ≤ evs.length → j.attempts + (k : Int) = j.maxAttempts →
      (runAttempts rd evs j).1.status = "failed"
      ∧ (runAttempts rd evs j).1.attempts = j.maxAttempts
      ∧ countRetryCalls (runAttempts rd evs j).2 = k - 1 := by
  intro evs
  induction evs with
  | nil => intro k j _ hk hkn _; simp at hkn; omega
  | cons ev rest ih =>
    intro k j hall hk hkn hsum
    obtain ⟨now, s⟩ := ev
    have hs : isRetryableOutcome s = true := hall (now, s) (List.mem_cons_self _ _)
    have hstep := processSMSJob_failing rd now j s hs
    by_cases hlt : j.attempts + 1 < j.maxAttempts
    · rw [if_pos hlt] at hstep
      obtain ⟨hst, hdel, hcnt⟩ := hstep
      have hk2 : 2 ≤ k := by omega
      have hrec := ih (k - 1)
        (retryJobUpdate now (backoffDelay (j.attempts + 1) rd)
          (processSMSJob rd now j s).1)
        (fun e he => hall e (List.mem_cons_of_mem _ he))
        (by omega)
        (by simp at hkn; omega)
        (by
          have h1 : (retryJobUpdate now (backoffDelay (j.attempts + 1) rd)
              (processSMSJob rd now j s).1).attempts
              = (processSMSJob rd now j s).1.attempts := rfl
          have h2 : (retryJobUpdate now (backoffDelay (j.attempts + 1) rd)
              (processSMSJob rd now j s).1).maxAttempts
              = (processSMSJob rd now j s).1.maxAttempts := rfl
          rw [h1, h2, processSMSJob_attempts, processSMSJob_maxAttempts]
          omega)
      simp only [runAttempts, hdel]
      refine ⟨hrec.1, ?_, ?_⟩
      · rw [hrec.2.1]
        show (processSMSJob rd now j s).1.maxAttempts = j.maxAttempts
        exact processSMSJob_maxAttempts rd now j s
      · rw [countRetryCalls_append, hcnt, hrec.2.2]
        omega
    · rw [if_neg hlt] at hstep
      obtain ⟨hst, hdel, hcnt⟩ := hstep
      simp only [runAttempts, hdel]
      refine ⟨hst, ?_, ?_⟩
      · rw [processSMSJob_attempts]
        omega
      · rw [hcnt]
        omega

/-- Each consumed event is one `sendSMS` invocation and bumps the counter by
exactly one, so the final counter is the initial one plus the invocation
count. -/
theorem runJob_attempts_eq (rd : Int) :
    ∀ (evs : List (Int × SendResult)) (j : SMSJob),
      (runJob rd evs j).1.attempts = j.attempts + ((runJob rd evs j).2 : Int) := by
  intro evs
  induction evs with
  | nil => intro j; simp [runJob]
  | cons ev rest ih =>
    intro j
    obtain ⟨now, s⟩ := ev
    simp only [runJob]
    cases hm : retryDelayOf (processSMSJob rd now j s).2 with
    | none =>
      simp only [processSMSJob_attempts]
      push_cast
      ring
    | some d =>
      simp only [hm]
      rw [ih (retryJobUpdate now d (processSMSJob rd now j s).1)]
      have ha : (retryJobUpdate now d (processSMSJob rd now j s).1).attempts
          = (processSMSJob rd now j s).1.attempts := rfl
      rw [ha, processSMSJob_attempts]
      push_cast
      ring

/-- `sendSMS` hands a parsed response to `processSMSJob` exactly when the
gateway answered HTTP 201 with a body that unmarshals. -/
theorem sendSMSClassify_ok_iff (hr : HttpResult) :
    (∃ r, sendSMSClassify hr = SendResult.ok r)
      ↔ ∃ resp, hr = HttpResult.resp 201 (some resp) := by
  cases hr with
  | netErr e => simp [sendSMSClassify]
  | resp st parsed =>
    by_cases hst : st = 201
    · subst hst
      cases parsed with
      | none => simp [sendSMSClassify]
      | some r => simp [sendSMSClassify]
    · simp [sendSMSClassify, hst]

/-- A `fetchJob` call that reports malformed data reports the id it was
given and leaves the store untouched. -/
theorem fetchJob_malformed_cases (st : QueueState) (pid id : Nat)
    (h : (fetchJob st pid).1 = DequeueOutcome.dataMalformed id) :
    pid = id ∧ (fetchJob st pid).2 = st := by
  unfold fetchJob at h ⊢
  cases hd : dataGet pid st.jobData with
  | none => rw [hd] at h; simp at h
  | some sd =>
    cases sd with
    | malformed =>
      rw [hd] at h
      simp at h
      exact ⟨h, rfl⟩
    | ok jj => rw [hd] at h; simp at h

/-! ## Claim theorems -/

/-- C1: the claim says `Dequeue` returns the job with the smallest
`scheduledFor ≤ now` across the union of the pending and retry containers.
The code instead scans pending first and consults retry only when pending has
no eligible entry: with an eligible pending job scheduled at 10 and an
eligible retry job scheduled at 5, at `now = 20` `Dequeue` returns the
pending job even though the retry job's `scheduledFor` is strictly smaller
and the spec-modelled merged `ClaimNext` selects the retry job. -/
theorem dequeue_prefers_pending_over_earlier_retry :
    (Dequeue stMerge 20).1 = DequeueOutcome.gotJob jobPending
  ∧ specClaimNext stMerge 20 = some jobRetry.id
  ∧ jobRetry.scheduledFor < jobPending.scheduledFor
  ∧ dequeueSelectRetry stMerge 20 = some jobRetry.id := by
  refine ⟨rfl, rfl, by decide, rfl⟩

/-- C2: the claim says selection and removal-plus-addition-to-processing are
one atomic store operation, so two concurrent `Dequeue` calls never return
the same job. In the code the selecting `ZRangeByScore` is a separate round
trip from the `ZRem`/`SAdd` transaction: in the interleaving where both
workers run the select before either commits, both selects return job 1, and
both commit-and-fetch sequences then succeed and hand job 1 to their caller
(`ZRem` of an absent member is a no-op and `SAdd` is idempotent, so the
second transaction does not fail). The first conjunct shows the
single-caller `Dequeue` is exactly this select-commit-fetch composition. -/
theorem dequeue_double_claim_race :
    Dequeue stRace 10 = fetchJob (claimFromPending stRace 1) 1
  ∧ dequeueSelectPending stRace 10 = some 1
  ∧ (fetchJob (claimFromPending stRace 1) 1).1 = DequeueOutcome.gotJob jobRace
  ∧ (fetchJob (claimFromPending (claimFromPending stRace 1) 1) 1).1
      = DequeueOutcome.gotJob jobRace := by
  refine ⟨rfl, rfl, rfl, rfl⟩

/-- C3: a job each of whose `maxAttempts` delivery attempts fails — by
gateway error or by non-success recipient status, in any mix — ends with
status `failed` (never retrying) with its attempts counter exactly at
`maxAttempts` and exactly `maxAttempts - 1` retry calls along the way, and
`RetryJob` is never invoked for a job whose incremented counter has reached
`maxAttempts` (the last conjunct, over every job and send outcome). -/
theorem exhausted_job_fails_at_maxAttempts (rd : Int)
    (evs : List (Int × SendResult)) (j : SMSJob)
    (hall : ∀ e ∈ evs, isRetryableOutcome e.2 = true)
    (h0 : j.attempts = 0) (hmax : 1 ≤ j.maxAttempts)
    (hlen : j.maxAttempts.toNat ≤ evs.length) :
    (runAttempts rd evs j).1.status = "failed"
  ∧ (runAttempts rd evs j).1.attempts = j.maxAttempts
  ∧ countRetryCalls (runAttempts rd evs j).2 = j.maxAttempts.toNat - 1
  ∧ ∀ (j2 : SMSJob) (now2 : Int) (s : SendResult) (d : Int),
      StoreCall.retryJob d ∈ (processSMSJob rd now2 j2 s).2 →
      (processSMSJob rd now2 j2 s).1.attempts < j2.maxAttempts := by
  obtain ⟨h1, h2, h3⟩ := runAttempts_all_failing rd evs j.maxAttempts.toNat j hall
    (by omega) hlen (by omega)
  exact ⟨h1, h2, h3, fun j2 now2 s d hd => retryJob_only_below_max rd now2 j2 s d hd⟩

/-- Witness for C3: a fresh job with `maxAttempts = 3` run to exhaustion on
two gateway errors and one non-success recipient status. -/
theorem exhausted_job_fails_at_maxAttempts_witness :
    (∀ e ∈ failingRun, isRetryableOutcome e.2 = true)
  ∧ jobFresh.attempts = 0 ∧ (1 : Int) ≤ jobFresh.maxAttempts
  ∧ jobFresh.maxAttempts.toNat ≤ failingRun.length
  ∧ ((runAttempts 30 failingRun jobFresh).1.status = "failed"
     ∧ (runAttempts 30 failingRun jobFresh).1.attempts = jobFresh.maxAttempts
     ∧ countRetryCalls (runAttempts 30 failingRun jobFresh).2
         = jobFresh.maxAttempts.toNat - 1
     ∧ ∀ (j2 : SMSJob) (now2 : Int) (s : SendResult) (d : Int),
         StoreCall.retryJob d ∈ (processSMSJob 30 now2 j2 s).2 →
         (processSMSJob 30 now2 j2 s).1.attempts < j2.maxAttempts) :=
  ⟨by decide, by decide, by decide, by decide,
   exhausted_job_fails_at_maxAttempts 30 failingRun jobFresh (by decide) (by decide)
     (by decide) (by decide)⟩

/-- C4: the backoff delay `n² · RetryDelay` is strictly increasing in the
attempt number and strictly positive for a positive configured base delay,
so the `RetryJob` transition always sets `scheduledFor` strictly past the
`lastAttempt` of the attempt that caused the retry; the final conjunct ties
the delay emitted by `processSMSJob` to this formula. -/
theorem backoff_monotone_positive (rd n retryNow : Int) (j : SMSJob)
    (hrd : 0 < rd) (hn : 1 ≤ n) (hla : j.lastAttempt ≤ retryNow) :
    backoffDelay n rd < backoffDelay (n + 1) rd
  ∧ 0 < backoffDelay n rd
  ∧ j.lastAttempt < (retryJobUpdate retryNow (backoffDelay n rd) j).scheduledFor
  ∧ ∀ (now : Int) (s : SendResult) (d : Int),
      StoreCall.retryJob d ∈ (processSMSJob rd now j s).2 →
      d = backoffDelay (j.attempts + 1) rd := by
  have hpos : 0 < backoffDelay n rd := by
    unfold backoffDelay
    have h1 : 0 < n * n := mul_pos (by linarith) (by linarith)
    exact mul_pos h1 hrd
  have hmono : backoffDelay n rd < backoffDelay (n + 1) rd := by
    unfold backoffDelay
    have h1 : n * n < (n + 1) * (n + 1) := by nlinarith
    exact mul_lt_mul_of_pos_right h1 hrd
  refine ⟨hmono, hpos, ?_, fun now s d hd => retryJob_delay_value rd now j s d hd⟩
  show j.lastAttempt < retryNow + backoffDelay n rd
  linarith

/-- Witness for C4 at base delay 30, first retry. -/
theorem backoff_monotone_positive_witness :
    (0 : Int) < 30 ∧ (1 : Int) ≤ 1 ∧ jobFresh.lastAttempt ≤ 100
  ∧ (backoffDelay 1 30 < backoffDelay (1 + 1) 30
     ∧ 0 < backoffDelay 1 30
     ∧ jobFresh.lastAttempt < (retryJobUpdate 100 (backoffDelay 1 30) jobFresh).scheduledFor
     ∧ ∀ (now : Int) (s : SendResult) (d : Int),
         StoreCall.retryJob d ∈ (processSMSJob 30 now jobFresh s).2 →
         d = backoffDelay (jobFresh.attempts + 1) 30) :=
  ⟨by decide, by decide, by decide,
   backoff_monotone_positive 30 1 100 jobFresh (by decide) (by decide) (by decide)⟩

/-- C5: each `processSMSJob` run increments the attempts counter by exactly
one immediately before its single `sendSMS` invocation; over any lifetime the
final counter equals the initial counter plus the number of `sendSMS`
invocations, and the counter never decreases across any observed point. -/
theorem attempts_equal_send_invocations (rd : Int) (evs : List (Int × SendResult))
    (j : SMSJob) :
    (∀ (now : Int) (s : SendResult),
        (processSMSJob rd now j s).1.attempts = j.attempts + 1)
  ∧ (runJob rd evs j).1.attempts = j.attempts + ((runJob rd evs j).2 : Int)
  ∧ ∀ (i : Nat), j.attempts ≤ (runJob rd (List.take i evs) j).1.attempts := by
  refine ⟨fun now s => processSMSJob_attempts rd now j s,
    runJob_attempts_eq rd evs j, fun i => ?_⟩
  rw [runJob_attempts_eq]
  omega

/-- C6: on an order-creation request that succeeds up to the SMS submission,
the HTTP response is the same whether `QueueSMS` fails or succeeds — in both
cases 201 Created with the order payload; the SMS error is only logged. -/
theorem create_order_response_ignores_sms_failure (req : CreateOrderRequest)
    (c : CustomerRec) (oid : Nat) (now : Int) (e : String) :
    createOrderHandler (some req) (RepoLookup.found c) oid none (some e) now
      = createOrderHandler (some req) (RepoLookup.found c) oid none none now
  ∧ (createOrderHandler (some req) (RepoLookup.found c) oid none (some e) now).status = 201
  ∧ (createOrderHandler (some req) (RepoLookup.found c) oid none (some e) now).success = true
  ∧ (createOrderHandler (some req) (RepoLookup.found c) oid none (some e) now).data
      = some
        { id := oid
          customerId := req.customerId
          item := req.item
          amount := req.amount
          orderedAt := req.orderedAt.getD now
          status := "pending"
          version := 1
          isActive := true
          createdAt := now
          updatedAt := now
          customer := c } := by
  exact ⟨rfl, rfl, rfl, rfl⟩

/-- C7: `MarkCompleted` is driven exactly by a gateway response that passed
`sendSMS` (HTTP 201 and well-formed body) whose first recipient status code
is 100 or 101; a gateway error or any other first-recipient status code
drives `RetryJob` exactly while the incremented counter is below
`maxAttempts` and `MarkFailed` exactly otherwise; and `sendSMS` yields a
parsed response exactly on HTTP 201 with a body that unmarshals. -/
theorem delivery_outcome_classification (rd now : Int) (j : SMSJob) (s : SendResult) :
    (StoreCall.markCompleted ∈ (processSMSJob rd now j s).2 ↔ isDelivered s = true)
  ∧ ((∃ d, StoreCall.retryJob d ∈ (processSMSJob rd now j s).2)
      ↔ (isRetryableOutcome s = true ∧ j.attempts + 1 < j.maxAttempts))
  ∧ ((∃ msg, StoreCall.markFailed msg ∈ (processSMSJob rd now j s).2)
      ↔ (isRetryableOutcome s = true ∧ ¬ (j.attempts + 1 < j.maxAttempts)))
  ∧ (∀ hr : HttpResult, (∃ r, sendSMSClassify hr = SendResult.ok r)
      ↔ ∃ resp, hr = HttpResult.resp 201 (some resp)) := by
  refine ⟨?_, ?_, ?_, sendSMSClassify_ok_iff⟩ <;>
  · cases s with
    | err e =>
      rw [processSMSJob_err_eq]
      split
      · next hlt => simp [isDelivered, isRetryableOutcome, hlt]
      · next hlt => simp [isDelivered, isRetryableOutcome, hlt]
    | ok resp =>
      obtain ⟨m, rs⟩ := resp
      cases rs with
      | nil =>
        rw [processSMSJob_ok_empty_eq]
        simp [isDelivered, isRetryableOutcome]
      | cons r rest =>
        rw [processSMSJob_ok_cons_eq]
        by_cases hc : r.statusCode = 101 ∨ r.statusCode = 100
        · rw [if_pos hc]
          simp [isDelivered, isRetryableOutcome, beq_iff_eq, Bool.or_eq_true, hc] <;> tauto
        · rw [if_neg hc]
          split
          · next hlt =>
            simp [isDelivered, isRetryableOutcome, beq_iff_eq, Bool.or_eq_true, hc, hlt] <;>
              tauto
          · next hlt =>
            simp [isDelivered, isRetryableOutcome, beq_iff_eq, Bool.or_eq_true, hc, hlt] <;>
              tauto

/-- Witness for C7 on a gateway-error outcome against a fresh job. -/
theorem delivery_outcome_classification_witness :
    (StoreCall.markCompleted ∈ (processSMSJob 30 100 jobFresh (SendResult.err "boom")).2
      ↔ isDelivered (SendResult.err "boom") = true)
  ∧ ((∃ d, StoreCall.retryJob d ∈ (processSMSJob 30 100 jobFresh (SendResult.err "boom")).2)
      ↔ (isRetryableOutcome (SendResult.err "boom") = true
          ∧ jobFresh.attempts + 1 < jobFresh.maxAttempts))
  ∧ ((∃ msg, StoreCall.markFailed msg ∈ (processSMSJob 30 100 jobFresh (SendResult.err "boom")).2)
      ↔ (isRetryableOutcome (SendResult.err "boom") = true
          ∧ ¬ (jobFresh.attempts + 1 < jobFresh.maxAttempts)))
  ∧ (∀ hr : HttpResult, (∃ r, sendSMSClassify hr = SendResult.ok r)
      ↔ ∃ resp, hr = HttpResult.resp 201 (some resp)) :=
  delivery_outcome_classification 30 100 jobFresh (SendResult.err "boom")

/-- C8 counterexample: with configured retry limit 0 (possible, since the
environment-derived `RetryLimit` is copied into the job without validation),
`QueueSMS` enqueues a job whose `maxAttempts` is 0, strictly below the 1 the
claim asserts for every enqueued job. -/
theorem queueSMS_enqueues_zero_maxAttempts :
    (QueueSMS 0 5 1 orderSample).toOption.map SMSJob.maxAttempts = some 0
  ∧ (0 : Int) < 1 := by
  refine ⟨by decide, by decide⟩

/-- C8 (amended): `QueueSMS` rejects an empty customer phone; every job it
enqueues has a non-empty recipient and payload, state pending, attempts 0,
`createdAt` and `scheduledFor` equal to the creation time, and `maxAttempts`
equal to the configured retry limit — which is not validated, so it is `≥ 1`
exactly when the configuration is. -/
theorem queueSMS_construction (retryLimit now : Int) (newId : Nat) (o : OrderRec) :
    (o.customer.phone = "" →
      QueueSMS retryLimit now newId o = Except.error "customer phone number is required")
  ∧ (o.customer.phone ≠ "" →
      ∃ j, QueueSMS retryLimit now newId o = Except.ok j
        ∧ j.phone = o.customer.phone ∧ j.phone ≠ ""
        ∧ j.message = buildOrderSMSMessage o ∧ j.message ≠ ""
        ∧ j.status = "pending" ∧ j.attempts = 0
        ∧ j.maxAttempts = retryLimit
        ∧ j.createdAt = now ∧ j.scheduledFor = now
        ∧ (1 ≤ retryLimit → 1 ≤ j.maxAttempts)) := by
  constructor
  · intro hp
    unfold QueueSMS
    rw [if_pos hp]
  · intro hp
    unfold QueueSMS
    rw [if_neg hp]
    exact ⟨_, rfl, rfl, hp, rfl, buildOrderSMSMessage_ne_empty o, rfl, rfl, rfl, rfl, rfl,
      fun h => h⟩

/-- Witness for C8 (amended) on an order with a phone and retry limit 3. -/
theorem queueSMS_construction_witness :
    orderSample.customer.phone ≠ ""
  ∧ (∃ j, QueueSMS 3 5 1 orderSample = Except.ok j
      ∧ j.phone = orderSample.customer.phone ∧ j.phone ≠ ""
      ∧ j.message = buildOrderSMSMessage orderSample ∧ j.message ≠ ""
      ∧ j.status = "pending" ∧ j.attempts = 0
      ∧ j.maxAttempts = 3
      ∧ j.createdAt = 5 ∧ j.scheduledFor = 5
      ∧ (1 ≤ (3 : Int) → 1 ≤ j.maxAttempts)) :=
  ⟨by decide, (queueSMS_construction 3 5 1 orderSample).2 (by decide)⟩

/-- C9 counterexample: the claim says a claimed job with malformed stored
data is moved to the Failed container. In the code `Dequeue` returns an
error and leaves the id in the processing set: on a store whose only job has
malformed data, after the claim the failed container is still empty and the
job sits in processing. -/
theorem malformed_job_not_moved_to_failed :
    (Dequeue stMalformed 10).1 = DequeueOutcome.dataMalformed 1
  ∧ 1 ∈ (Dequeue stMalformed 10).2.processing
  ∧ (Dequeue stMalformed 10).2.failed = [] := by
  refine ⟨rfl, by decide, rfl⟩

/-- C9 (amended): on a malformed claimed job the worker logs the dequeue
error and the loop continues — the failure is fatal to that single job only —
but the job remains in the Processing container and the Failed container is
untouched. -/
theorem malformed_job_stays_processing (st : QueueState) (now : Int) (id : Nat)
    (h : (Dequeue st now).1 = DequeueOutcome.dataMalformed id) :
    id ∈ (Dequeue st now).2.processing
  ∧ (Dequeue st now).2.failed = st.failed
  ∧ loopContinues (loopIteration false (Dequeue st now).1) = true := by
  unfold Dequeue at h ⊢
  cases hp : dequeueSelectPending st now with
  | some pid =>
    simp only [hp] at h ⊢
    obtain ⟨hpid, hst⟩ := fetchJob_malformed_cases _ pid id h
    rw [hst, h]
    subst hpid
    exact ⟨mem_setAdd_self pid _, rfl, rfl⟩
  | none =>
    simp only [hp] at h ⊢
    unfold dequeueFromRetry at h ⊢
    cases hr : dequeueSelectRetry st now with
    | some rid =>
      simp only [hr] at h ⊢
      obtain ⟨hpid, hst⟩ := fetchJob_malformed_cases _ rid id h
      rw [hst, h]
      subst hpid
      exact ⟨mem_setAdd_self rid _, rfl, rfl⟩
    | none =>
      simp only [hr] at h
      simp at h

/-- Witness for C9 (amended) on the malformed-data store. -/
theorem malformed_job_stays_processing_witness :
    (Dequeue stMalformed 10).1 = DequeueOutcome.dataMalformed 1
  ∧ (1 ∈ (Dequeue stMalformed 10).2.processing
     ∧ (Dequeue stMalformed 10).2.failed = stMalformed.failed
     ∧ loopContinues (loopIteration false (Dequeue stMalformed 10).1) = true) :=
  ⟨by decide, malformed_job_stays_processing stMalformed 10 1 (by decide)⟩

/-- C10: on an HTTP-201 response with an empty recipients list,
`processSMSJob` issues only `UpdateJob` — none of `MarkCompleted`,
`RetryJob`, `MarkFailed` — and applying that call list to any store leaves
every container's membership unchanged, so the job stays in Processing with
no terminal resolution. -/
theorem empty_recipients_only_updates (rd now : Int) (j : SMSJob) (m : String)
    (st : QueueState) (id : Nat) :
    (processSMSJob rd now j (SendResult.ok { message := m, recipients := [] })).2
        = [StoreCall.updateJob]
  ∧ (applyStoreCalls now id
        (processSMSJob rd now j (SendResult.ok { message := m, recipients := [] })).1 st
        (processSMSJob rd now j (SendResult.ok { message := m, recipients := [] })).2).processing
      = st.processing
  ∧ (applyStoreCalls now id
        (processSMSJob rd now j (SendResult.ok { message := m, recipients := [] })).1 st
        (processSMSJob rd now j (SendResult.ok { message := m, recipients := [] })).2).completed
      = st.completed
  ∧ (applyStoreCalls now id
        (processSMSJob rd now j (SendResult.ok { message := m, recipients := [] })).1 st
        (processSMSJob rd now j (SendResult.ok { message := m, recipients := [] })).2).failed
      = st.failed
  ∧ (applyStoreCalls now id
        (processSMSJob rd now j (SendResult.ok { message := m, recipients := [] })).1 st
        (processSMSJob rd now j (SendResult.ok { message := m, recipients := [] })).2).retry
      = st.retry
  ∧ (applyStoreCalls now id
        (processSMSJob rd now j (SendResult.ok { message := m, recipients := [] })).1 st
        (processSMSJob rd now j (SendResult.ok { message := m, recipients := [] })).2).pending
      = st.pending := by
  refine ⟨rfl, ?_, ?_, ?_, ?_, ?_⟩ <;>
    simp [processSMSJob_ok_empty_eq, applyStoreCalls, applyStoreCall]

end Savannah
